import Mathlib

/-!
Verification of the nested-JSON parsing pipeline (stack-context engine,
tokenizing pushdown automaton, node-tree builder, column-tree reducer,
column materializer and device string caster) of this repository.

Each definition is a shallow embedding of the corresponding source
function; GPU-parallel primitives (scans, reductions, scatters) are
embedded by their sequential semantics on lists.  Machine indices are
modelled by `Nat`, with the source's `-1` sentinels modelled by
`Option Nat` (`none` = sentinel).
-/

set_option maxRecDepth 10000

/-- Node categories of the node tree / column tree
(`NC_STRUCT`, `NC_LIST`, `NC_FN`, `NC_STR`, `NC_VAL`, `NC_ERR` of
`nested_json`). -/
inductive NodeCat where
  | NC_STRUCT
  | NC_LIST
  | NC_FN
  | NC_STR
  | NC_VAL
  | NC_ERR
deriving DecidableEq, Repr, Fintype

open NodeCat

/-- Whether a category is a leaf category, as computed in the category
merge lambda of `gather_column_info` (json_column.cu):
`(type == NC_VAL || type == NC_STR)`. -/
def isLeafCat (t : NodeCat) : Bool :=
  t == NC_VAL || t == NC_STR

/-- The category merge operator of the `reduce_by_key` in
`gather_column_info` (json_column.cu, lines 141-157); the same operator
appears in `max_row_offsets_col_categories` (CSR variant). -/
def unifyCategories (a b : NodeCat) : NodeCat :=
  if a == b then a
  else if isLeafCat a then
    (if b == NC_FN then NC_ERR else if isLeafCat b then NC_STR else b)
  else if isLeafCat b then
    (if a == NC_FN then NC_ERR else if isLeafCat a then NC_STR else a)
  else NC_ERR

/-- Reduction of a run of categories, as a `reduce_by_key` computes it
for one column's run (left fold of the merge operator). -/
def reduceCategories (init : NodeCat) (l : List NodeCat) : NodeCat :=
  l.foldl unifyCategories init

/-! ## Stack-context engine and tokenizing pushdown automaton
(nested_json_gpu.cu: `to_stack_op`, `tokenizer_pda`, `get_stack_context`,
`get_token_stream`). -/

/-- Input symbol groups of the tokenizer PDA (`tokenizer_pda::SGID`). -/
inductive PdaSG where
  | OBC
  | OBT
  | CBC
  | CBT
  | QTE
  | ESC
  | CMA
  | CLN
  | WSP
  | OTR
deriving DecidableEq, Repr, Fintype

/-- Stack contexts (`tokenizer_pda::STACK_SGID`): JSON root, within a
list, within a struct. -/
inductive StackCtx where
  | STACK_ROOT
  | STACK_LIST
  | STACK_STRUCT
deriving DecidableEq, Repr, Fintype

/-- States of the tokenizer pushdown automaton (`pda_state_t`). -/
inductive PdaState where
  | PD_BOV
  | PD_BOA
  | PD_LON
  | PD_STR
  | PD_SCE
  | PD_PVL
  | PD_BFN
  | PD_FLN
  | PD_FNE
  | PD_PFN
  | PD_ERR
deriving DecidableEq, Repr, Fintype

/-- Tokens emitted by the PDA transducer (the `TK_*` constants used by
the translation table of nested_json_gpu.cu). -/
inductive Token where
  | TK_BOS
  | TK_EOS
  | TK_BOL
  | TK_EOL
  | TK_BST
  | TK_EST
  | TK_BOV
  | TK_POV
  | TK_BFN
  | TK_EFN
  | TK_ERR
deriving DecidableEq, Repr

open PdaSG StackCtx PdaState Token

/-- The `tos_sg_to_pda_sgid` lookup table, as a function of the byte
value: tab, newline, carriage return and space are whitespace; the
structural characters and quote/escape/comma/colon get their own
groups; everything else (including bytes at and above 127, which the
table clamps to its `OTR` last entry) is `OTR`. -/
def charToSG (c : Char) : PdaSG :=
  let n := c.toNat
  if n == 9 || n == 10 || n == 13 || n == 32 then WSP
  else if n == 34 then QTE
  else if n == 44 then CMA
  else if n == 58 then CLN
  else if n == 91 then OBT
  else if n == 92 then ESC
  else if n == 93 then CBT
  else if n == 123 then OBC
  else if n == 125 then CBC
  else OTR

/-- Index of a stack context (`STACK_ROOT = 0, STACK_LIST = 1,
STACK_STRUCT = 2`). -/
def ctxIdx : StackCtx → Nat
  | STACK_ROOT => 0
  | STACK_LIST => 1
  | STACK_STRUCT => 2

/-- Index of an input symbol group (`OBC = 0 … OTR = 9`). -/
def sgIdx : PdaSG → Nat
  | OBC => 0
  | OBT => 1
  | CBC => 2
  | CBT => 3
  | QTE => 4
  | ESC => 5
  | CMA => 6
  | CLN => 7
  | WSP => 8
  | OTR => 9

/-- The combined PDA symbol-group id
(`stack_idx * NUM_PDA_INPUT_SGS + symbol_gid`). -/
def pdaSgid (ctx : StackCtx) (g : PdaSG) : Nat :=
  ctxIdx ctx * 10 + sgIdx g

/-- Row of the PDA transition table for a given state, transcribed from
`tokenizer_pda::get_transition_table` (30 entries: the three stack
contexts root/list/struct, 10 input symbol groups each). -/
def pdaTransRow : PdaState → List PdaState
  | PD_BOV =>
    [PD_BOA, PD_BOA, PD_ERR, PD_ERR, PD_STR, PD_ERR, PD_ERR, PD_ERR, PD_BOV, PD_LON,
     PD_BOA, PD_BOA, PD_ERR, PD_ERR, PD_STR, PD_ERR, PD_ERR, PD_ERR, PD_BOV, PD_LON,
     PD_BOA, PD_BOA, PD_ERR, PD_ERR, PD_STR, PD_ERR, PD_ERR, PD_ERR, PD_BOV, PD_LON]
  | PD_BOA =>
    [PD_ERR, PD_ERR, PD_ERR, PD_ERR, PD_ERR, PD_ERR, PD_ERR, PD_ERR, PD_ERR, PD_ERR,
     PD_BOA, PD_BOA, PD_ERR, PD_PVL, PD_STR, PD_ERR, PD_ERR, PD_ERR, PD_BOA, PD_LON,
     PD_ERR, PD_ERR, PD_PVL, PD_ERR, PD_FLN, PD_ERR, PD_ERR, PD_ERR, PD_BOA, PD_ERR]
  | PD_LON =>
    [PD_ERR, PD_ERR, PD_ERR, PD_ERR, PD_ERR, PD_ERR, PD_ERR, PD_ERR, PD_PVL, PD_LON,
     PD_ERR, PD_ERR, PD_ERR, PD_PVL, PD_ERR, PD_ERR, PD_BOV, PD_ERR, PD_PVL, PD_LON,
     PD_ERR, PD_ERR, PD_PVL, PD_ERR, PD_ERR, PD_ERR, PD_BFN, PD_ERR, PD_PVL, PD_LON]
  | PD_STR =>
    [PD_STR, PD_STR, PD_STR, PD_STR, PD_PVL, PD_SCE, PD_STR, PD_STR, PD_STR, PD_STR,
     PD_STR, PD_STR, PD_STR, PD_STR, PD_PVL, PD_SCE, PD_STR, PD_STR, PD_STR, PD_STR,
     PD_STR, PD_STR, PD_STR, PD_STR, PD_PVL, PD_SCE, PD_STR, PD_STR, PD_STR, PD_STR]
  | PD_SCE =>
    [PD_STR, PD_STR, PD_STR, PD_STR, PD_STR, PD_STR, PD_STR, PD_STR, PD_STR, PD_STR,
     PD_STR, PD_STR, PD_STR, PD_STR, PD_STR, PD_STR, PD_STR, PD_STR, PD_STR, PD_STR,
     PD_STR, PD_STR, PD_STR, PD_STR, PD_STR, PD_STR, PD_STR, PD_STR, PD_STR, PD_STR]
  | PD_PVL =>
    [PD_ERR, PD_ERR, PD_ERR, PD_ERR, PD_ERR, PD_ERR, PD_ERR, PD_ERR, PD_PVL, PD_ERR,
     PD_ERR, PD_ERR, PD_ERR, PD_PVL, PD_ERR, PD_ERR, PD_BOV, PD_ERR, PD_PVL, PD_ERR,
     PD_ERR, PD_ERR, PD_PVL, PD_ERR, PD_ERR, PD_ERR, PD_BFN, PD_ERR, PD_PVL, PD_ERR]
  | PD_BFN =>
    [PD_ERR, PD_ERR, PD_ERR, PD_ERR, PD_ERR, PD_ERR, PD_ERR, PD_ERR, PD_ERR, PD_ERR,
     PD_ERR, PD_ERR, PD_ERR, PD_ERR, PD_ERR, PD_ERR, PD_ERR, PD_ERR, PD_ERR, PD_ERR,
     PD_ERR, PD_ERR, PD_ERR, PD_ERR, PD_FLN, PD_ERR, PD_ERR, PD_ERR, PD_BFN, PD_ERR]
  | PD_FLN =>
    [PD_ERR, PD_ERR, PD_ERR, PD_ERR, PD_ERR, PD_ERR, PD_ERR, PD_ERR, PD_ERR, PD_ERR,
     PD_ERR, PD_ERR, PD_ERR, PD_ERR, PD_ERR, PD_ERR, PD_ERR, PD_ERR, PD_ERR, PD_ERR,
     PD_FLN, PD_FLN, PD_FLN, PD_FLN, PD_PFN, PD_FNE, PD_FLN, PD_FLN, PD_FLN, PD_FLN]
  | PD_FNE =>
    [PD_ERR, PD_ERR, PD_ERR, PD_ERR, PD_ERR, PD_ERR, PD_ERR, PD_ERR, PD_ERR, PD_ERR,
     PD_ERR, PD_ERR, PD_ERR, PD_ERR, PD_ERR, PD_ERR, PD_ERR, PD_ERR, PD_ERR, PD_ERR,
     PD_FLN, PD_FLN, PD_FLN, PD_FLN, PD_FLN, PD_FLN, PD_FLN, PD_FLN, PD_FLN, PD_FLN]
  | PD_PFN =>
    [PD_ERR, PD_ERR, PD_ERR, PD_ERR, PD_ERR, PD_ERR, PD_ERR, PD_ERR, PD_ERR, PD_ERR,
     PD_ERR, PD_ERR, PD_ERR, PD_ERR, PD_ERR, PD_ERR, PD_ERR, PD_ERR, PD_ERR, PD_ERR,
     PD_ERR, PD_ERR, PD_ERR, PD_ERR, PD_ERR, PD_ERR, PD_ERR, PD_BOV, PD_PFN, PD_ERR]
  | PD_ERR =>
    [PD_ERR, PD_ERR, PD_ERR, PD_ERR, PD_ERR, PD_ERR, PD_ERR, PD_ERR, PD_ERR, PD_ERR,
     PD_ERR, PD_ERR, PD_ERR, PD_ERR, PD_ERR, PD_ERR, PD_ERR, PD_ERR, PD_ERR, PD_ERR,
     PD_ERR, PD_ERR, PD_ERR, PD_ERR, PD_ERR, PD_ERR, PD_ERR, PD_ERR, PD_ERR, PD_ERR]

/-- Row of the PDA translation table for a given state, transcribed from
`tokenizer_pda::get_translation_table` (30 entries, each a token list). -/
def pdaEmitRow : PdaState → List (List Token)
  | PD_BOV =>
    [[TK_BOS], [TK_BOL], [TK_ERR], [TK_ERR], [TK_BST], [TK_ERR], [TK_ERR], [TK_ERR],
     [], [TK_BOV], [TK_BOS], [TK_BOL], [TK_ERR], [TK_ERR], [TK_BST], [TK_ERR],
     [TK_ERR], [TK_ERR], [], [TK_BOV], [TK_BOS], [TK_BOL], [TK_ERR], [TK_ERR],
     [TK_BST], [TK_ERR], [TK_ERR], [TK_ERR], [], [TK_BOV]]
  | PD_BOA =>
    [[TK_ERR], [TK_ERR], [TK_ERR], [TK_ERR], [TK_ERR], [TK_ERR], [TK_ERR], [TK_ERR],
     [TK_ERR], [TK_ERR], [TK_BOS], [TK_BOL], [TK_ERR], [TK_EOL], [TK_BST], [TK_ERR],
     [TK_ERR], [TK_ERR], [], [TK_BOV], [TK_ERR], [TK_ERR], [TK_EOS], [TK_ERR],
     [TK_BFN], [TK_ERR], [TK_ERR], [TK_ERR], [], [TK_ERR]]
  | PD_LON =>
    [[TK_ERR], [TK_ERR], [TK_ERR], [TK_ERR], [TK_ERR],
     [TK_ERR], [TK_ERR], [TK_ERR], [TK_POV], [],
     [TK_ERR], [TK_ERR], [TK_ERR], [TK_POV, TK_EOL], [TK_ERR],
     [TK_ERR], [TK_POV], [TK_ERR], [TK_POV], [],
     [TK_ERR], [TK_ERR], [TK_POV, TK_EOS], [TK_ERR], [TK_ERR],
     [TK_ERR], [TK_POV], [TK_ERR], [TK_POV], []]
  | PD_STR =>
    [[], [], [], [], [TK_EST], [], [], [], [], [],
     [], [], [], [], [TK_EST], [], [], [], [], [],
     [], [], [], [], [TK_EST], [], [], [], [], []]
  | PD_SCE =>
    [[], [], [], [], [], [], [], [], [], [],
     [], [], [], [], [], [], [], [], [], [],
     [], [], [], [], [], [], [], [], [], []]
  | PD_PVL =>
    [[TK_ERR], [TK_ERR], [TK_ERR], [TK_ERR], [TK_ERR], [TK_ERR], [TK_ERR], [TK_ERR],
     [], [TK_ERR], [TK_ERR], [TK_ERR], [TK_ERR], [TK_EOL], [TK_ERR], [TK_ERR],
     [], [TK_ERR], [], [TK_ERR], [TK_ERR], [TK_ERR], [TK_EOS], [TK_ERR],
     [TK_ERR], [TK_ERR], [], [TK_ERR], [], [TK_ERR]]
  | PD_BFN =>
    [[TK_ERR], [TK_ERR], [TK_ERR], [TK_ERR], [TK_ERR], [TK_ERR], [TK_ERR], [TK_ERR],
     [TK_ERR], [TK_ERR], [TK_ERR], [TK_ERR], [TK_ERR], [TK_ERR], [TK_ERR], [TK_ERR],
     [TK_ERR], [TK_ERR], [TK_ERR], [TK_ERR], [TK_ERR], [TK_ERR], [TK_ERR], [TK_ERR],
     [TK_BFN], [TK_ERR], [TK_ERR], [TK_ERR], [], [TK_ERR]]
  | PD_FLN =>
    [[TK_ERR], [TK_ERR], [TK_ERR], [TK_ERR], [TK_ERR], [TK_ERR], [TK_ERR], [TK_ERR],
     [TK_ERR], [TK_ERR], [TK_ERR], [TK_ERR], [TK_ERR], [TK_ERR], [TK_ERR], [TK_ERR],
     [TK_ERR], [TK_ERR], [TK_ERR], [TK_ERR], [], [], [], [],
     [TK_EFN], [], [], [], [], []]
  | PD_FNE =>
    [[TK_ERR], [TK_ERR], [TK_ERR], [TK_ERR], [TK_ERR], [TK_ERR], [TK_ERR], [TK_ERR],
     [TK_ERR], [TK_ERR], [TK_ERR], [TK_ERR], [TK_ERR], [TK_ERR], [TK_ERR], [TK_ERR],
     [TK_ERR], [TK_ERR], [TK_ERR], [TK_ERR], [], [], [], [],
     [], [], [], [], [], []]
  | PD_PFN =>
    [[TK_ERR], [TK_ERR], [TK_ERR], [TK_ERR], [TK_ERR], [TK_ERR], [TK_ERR], [TK_ERR],
     [TK_ERR], [TK_ERR], [TK_ERR], [TK_ERR], [TK_ERR], [TK_ERR], [TK_ERR], [TK_ERR],
     [TK_ERR], [TK_ERR], [TK_ERR], [TK_ERR], [TK_ERR], [TK_ERR], [TK_ERR], [TK_ERR],
     [TK_ERR], [TK_ERR], [TK_ERR], [], [], [TK_ERR]]
  | PD_ERR =>
    [[], [], [], [], [], [], [], [], [], [],
     [], [], [], [], [], [], [], [], [], [],
     [], [], [], [], [], [], [], [], [], []]

/-- Transition of the PDA for one (state, stack-context, symbol-group)
cell. -/
def pdaTransition (s : PdaState) (ctx : StackCtx) (g : PdaSG) : PdaState :=
  (pdaTransRow s).getD (pdaSgid ctx g) PD_ERR

/-- Tokens emitted by the PDA for one (state, stack-context,
symbol-group) cell. -/
def pdaEmit (s : PdaState) (ctx : StackCtx) (g : PdaSG) : List Token :=
  (pdaEmitRow s).getD (pdaSgid ctx g) []

/-- States of the three-state DFA of the stack-context engine
(`to_stack_op::DFA_STATES`): outside a string, inside a string, inside
a string right after an escape character. -/
inductive ScDfaState where
  | TT_OOS
  | TT_STR
  | TT_ESC
deriving DecidableEq, Repr

open ScDfaState

/-- One step of the `to_stack_op` DFA (transition table of
nested_json_gpu.cu): quotes toggle in/out of string state, an escape
inside a string shields the next character; nothing else changes the
state. -/
def scDfaStep (s : ScDfaState) (c : Char) : ScDfaState :=
  match s with
  | TT_OOS => if c == '"' then TT_STR else TT_OOS
  | TT_STR => if c == '"' then TT_OOS else if c == '\\' then TT_ESC else TT_STR
  | TT_ESC => TT_STR

/-- Whether the DFA, in state `s`, reads `c` as a structural bracket or
brace (the translation table outputs the bracket itself only in the
out-of-string state). -/
def scStructural (s : ScDfaState) (c : Char) : Bool :=
  s == TT_OOS && (c == '[' || c == ']' || c == '{' || c == '}')

/-- The stack context of every input byte (`get_stack_context`):
the DFA selects the structural brackets outside of strings and the
logical stack turns the push/pop sequence into a top-of-stack symbol
per original byte.  At a push or pop position the context is the
top of stack before that operation, matching the golden outputs of the
source's StackContext test.  A pop on an empty stack is modelled as a
no-op (the device logical stack has no defined underflow behaviour;
none of the inputs used here underflows). -/
def stackContexts (input : List Char) : List StackCtx :=
  go TT_OOS [] input
where
  top : List StackCtx → StackCtx
    | [] => STACK_ROOT
    | c :: _ => c
  go : ScDfaState → List StackCtx → List Char → List StackCtx
    | _, _, [] => []
    | s, stk, c :: rest =>
      let ctx := top stk
      let stk' :=
        if scStructural s c then
          if c == '[' then STACK_LIST :: stk
          else if c == '{' then STACK_STRUCT :: stk
          else stk.tail
        else stk
      ctx :: go (scDfaStep s c) stk' rest

/-- The token stream of an input (`get_token_stream`): the PDA,
started in `PD_BOV`, reads each (symbol, stack-context) pair, emits the
translation-table cell's tokens at that byte's index and moves to the
transition-table cell's state. -/
def getTokenStream (input : List Char) : List (Token × Nat) :=
  go PD_BOV (input.zip (stackContexts input)) 0
where
  go : PdaState → List (Char × StackCtx) → Nat → List (Token × Nat)
    | _, [], _ => []
    | s, (c, ctx) :: rest, i =>
      let g := charToSG c
      ((pdaEmit s ctx g).map (fun t => (t, i))) ++ go (pdaTransition s ctx g) rest (i + 1)

/-! ## Node Tree Builder (`get_tree_representation`,
nested_json_gpu.cu lines 409-579: the sequential host loop over the
token stream). -/

/-- The node-tree arrays (`tree_meta_t`), indexed by node id.  The
source's `parent_node_sentinel` (-1) is modelled by `none`. -/
structure TreeMeta where
  cats : List NodeCat
  pars : List (Option Nat)
  levs : List Nat
  rangeBeg : List Nat
  rangeEnd : List Nat
deriving Repr, DecidableEq

/-- The empty node tree. -/
def TreeMeta.empty : TreeMeta := ⟨[], [], [], [], []⟩

/-- Whether a token represents a node in the tree (`is_node`). -/
def isNodeTok : Token → Bool
  | TK_BOS | TK_BOL | TK_BST | TK_BOV | TK_BFN | TK_ERR => true
  | _ => false

/-- The node category a token becomes (`token_to_node`). -/
def tokenToNode : Token → NodeCat
  | TK_BOS => NC_STRUCT
  | TK_BOL => NC_LIST
  | TK_BST => NC_STR
  | TK_BOV => NC_VAL
  | TK_BFN => NC_FN
  | _ => NC_ERR

/-- Range begin for a token (`get_token_index`): string and field-name
begin tokens skip the quote character. -/
def getTokenIndex (t : Token) (idx : Nat) : Nat :=
  match t with
  | TK_BST => idx + 1
  | TK_BFN => idx + 1
  | _ => idx

/-- Whether a token expects its end-of-* partner next
(`is_begin_of_section`). -/
def isBeginOfSection : Token → Bool
  | TK_BST | TK_BOV | TK_BFN => true
  | _ => false

/-- The end-of-* partner of a beginning-of-* token (`end_of_partner`). -/
def endOfPartner : Token → Token
  | TK_BST => TK_EST
  | TK_BOV => TK_POV
  | TK_BFN => TK_EFN
  | _ => TK_ERR

/-- Whether the token pops from the parent-node stack (`does_pop`). -/
def doesPop : Token → Bool
  | TK_EOS | TK_EOL => true
  | _ => false

/-- Whether the token pushes onto the parent-node stack (`does_push`). -/
def doesPush : Token → Bool
  | TK_BOS | TK_BOL => true
  | _ => false

/-- Node emission of the tree builder: the node's parent is the stack's
top node, its level the stack's size, its byte range `[rb, re)`.  A
token that is not a node leaves the arrays untouched. -/
def emitNode (t : Token) (rb re : Nat) (tm : TreeMeta) (stk : List (Nat × Bool)) :
    TreeMeta :=
  if isNodeTok t then
    { cats := tm.cats ++ [tokenToNode t]
      pars := tm.pars ++ [stk.head?.map Prod.fst]
      levs := tm.levs ++ [stk.length]
      rangeBeg := tm.rangeBeg ++ [rb]
      rangeEnd := tm.rangeEnd ++ [re] }
  else tm

/-- Pop of a field-name marker left on top of the stack (run after any
non-field-name token). -/
def fieldPop (stk : List (Nat × Bool)) : List (Nat × Bool) :=
  match stk with
  | (_, true) :: s => s
  | other => other

/-- One loop iteration of the tree builder for a token whose node range
is `[rb, re)`: emit the node (when the token is a node), then modify
the parent stack — a field-name begin pushes a field-name marker; a
struct/list begin pushes; a struct/list end pops (error on an empty
stack, the source's `CUDF_EXPECTS`); after any non-field-name token, a
field-name marker left on top is popped.  The stack holds
(node id, is-field-name) pairs, top at the head. -/
def treeStep (t : Token) (rb re : Nat) (tm : TreeMeta) (stk : List (Nat × Bool)) :
    Except String (TreeMeta × List (Nat × Bool)) :=
  let tm' := emitNode t rb re tm stk
  let n := tm.cats.length
  if t == TK_BFN then .ok (tm', (n, true) :: stk)
  else if doesPush t then .ok (tm', fieldPop ((n, false) :: stk))
  else if doesPop t then
    match stk with
    | [] => .error "Invalid JSON input."
    | _ :: s => .ok (tm', fieldPop s)
  else .ok (tm', fieldPop stk)

/-- The tree builder's loop over the token stream.  A
beginning-of-{string, value, field-name} token is merged with its
following matching end-of-* token into one node (the merged token is
consumed and takes no part in the stack update).  The source compares
against the partner through the numeric truthiness of `end_of_partner`;
the `token_t` enumeration lives in a header that is not part of the
repository's files, so the merge condition is modelled from the spec's
words ("merged with its following matching End token"), which also
matches the repository's CPU reference implementation
(`get_tree_representation_cpu`). -/
def treeGo : List (Token × Nat) → TreeMeta → List (Nat × Bool) → Except String TreeMeta
  | [], tm, _ => .ok tm
  | [(t, idx)], tm, stk =>
    (match treeStep t (getTokenIndex t idx) (getTokenIndex t idx + 1) tm stk with
     | .error e => .error e
     | .ok (tm', _) => .ok tm')
  | (t, idx) :: (t2, idx2) :: restTail, tm, stk =>
    let rb := getTokenIndex t idx
    if isBeginOfSection t && t2 == endOfPartner t then
      match treeStep t rb idx2 tm stk with
      | .error e => .error e
      | .ok (tm', stk') => treeGo restTail tm' stk'
    else
      match treeStep t rb (rb + 1) tm stk with
      | .error e => .error e
      | .ok (tm', stk') => treeGo ((t2, idx2) :: restTail) tm' stk'

/-- `get_tree_representation`: tokenize the input and run the (host)
tree-builder loop. -/
def getTreeRepresentation (input : List Char) : Except String TreeMeta :=
  treeGo (getTokenStream input) TreeMeta.empty []

/-! ## Column Tree Reducer and Column Materializer
(json_column.cu: `gather_column_info`, `make_json_column2`,
`json_column_to_cudf_column2`, `parse_nested_json2`). -/

/-- The slice `[b, e)` of the input. -/
def sliceRange (input : List Char) (b e : Nat) : List Char :=
  (input.drop b).take (e - b)

/-- Inclusive prefix scan with `maximum` over natural numbers
(`thrust::inclusive_scan` with `thrust::maximum`), carrying the running
maximum `m`. -/
def maxScanFrom (m : Nat) : List Nat → List Nat
  | [] => []
  | a :: t => Nat.max m a :: maxScanFrom (Nat.max m a) t

/-- The inclusive max-scan of a list (running maximum; on naturals the
first output equals the first input). -/
def maxScan (l : List Nat) : List Nat :=
  maxScanFrom 0 l

/-- Column key of a node: which logical column the node belongs to.
Modelled from the spec: `records_orient_tree_traversal` (its
implementation file is not part of the repository's files) produces
`col_ids` such that "nodes with the same parent-column and same field
name/array-position share a column id" — a field-name node is keyed by
its parent column and its name text, a list element by its parent
column, and the value/nested node under a field name by the
field-name's column. -/
inductive ColKey where
  | root
  | fieldName (parentCol : Nat) (name : List Char)
  | fieldChild (parentCol : Nat)
  | listChild (parentCol : Nat)
  | structChild (parentCol : Nat)
  | otherChild (parentCol : Nat)
deriving DecidableEq, Repr

/-- Modelled from the spec: `records_orient_tree_traversal` (not part
of the repository's files) — per node, its column id (consecutive ids
in first-occurrence order) and its row offset: "row_offsets[node_id]
giving the node's row index within its column"; a list element's row is
its occurrence index within its column, and any other node inherits its
parent's row (so a record's fields report the record's row, as in the
spec's scenario 2).  Returns `(col_ids, row_offsets)`. -/
def recordsOrientTraversal (input : List Char) (tm : TreeMeta) :
    List Nat × List Nat :=
  let n := tm.cats.length
  let st := (List.range n).foldl step (([] : List (ColKey × Nat)), ([] : List Nat),
    ([] : List Nat), ([] : List Nat))
  (st.2.1, st.2.2.1)
where
  step st i :=
    let (keyMap, colIds, rowOffs, counts) := st
    let parentOpt := tm.pars.getD i none
    let key : ColKey :=
      match parentOpt with
      | none => ColKey.root
      | some p =>
        let pc := colIds.getD p 0
        match tm.cats.getD p NC_ERR with
        | NC_FN => ColKey.fieldChild pc
        | NC_LIST => ColKey.listChild pc
        | NC_STRUCT =>
          if tm.cats.getD i NC_ERR == NC_FN then
            ColKey.fieldName pc (sliceRange input (tm.rangeBeg.getD i 0) (tm.rangeEnd.getD i 0))
          else ColKey.structChild pc
        | _ => ColKey.otherChild pc
    let (cid, keyMap', counts') :=
      match keyMap.find? (fun kv => kv.1 == key) with
      | some kv => (kv.2, keyMap, counts)
      | none => (counts.length, keyMap ++ [(key, counts.length)], counts ++ [0])
    let fromCount :=
      match parentOpt with
      | none => true
      | some p => tm.cats.getD p NC_ERR == NC_LIST
    let row := if fromCount then counts'.getD cid 0 else rowOffs.getD (parentOpt.getD 0) 0
    (keyMap', colIds ++ [cid], rowOffs ++ [row], counts'.set cid (counts'.getD cid 0 + 1))

/-- The node ids of one column, in node-id order (one bucket of the
stable sort of node ids by column id). -/
def colBucket (colIds : List Nat) (c : Nat) : List Nat :=
  (List.range colIds.length).filter (fun i => colIds.getD i 0 == c)

/-- All node ids after the stable sort by column id
(`thrust::stable_sort_by_key`; the traversal assigns consecutive column
ids, so the buckets in column order are exactly the stable sort). -/
def sortedNodeIds (colIds : List Nat) (numCols : Nat) : List Nat :=
  ((List.range numCols).map (colBucket colIds)).flatten

/-- Number of columns: one per distinct column id (the traversal
assigns the ids `0 … numCols-1`). -/
def numColumns (colIds : List Nat) : Nat :=
  match colIds with
  | [] => 0
  | _ => colIds.foldl Nat.max 0 + 1

/-- The walk of `gather_column_info`'s `transform_if` lambda that copies
a list's `max_row_offsets` to its children: climb through non-List
ancestors until a List parent or the root is reached, then take that
column's max row offset.  `fuel` bounds the walk (parent column ids
strictly decrease, so `numCols` steps suffice). -/
def climbToList (colPars : List (Option Nat)) (colCats : List NodeCat)
    (maxRows : List Nat) : Nat → Nat → Nat
  | 0, c => maxRows.getD c 0
  | fuel + 1, c =>
    match colPars.getD c none with
    | none => maxRows.getD c 0
    | some p =>
      if colCats.getD p NC_ERR == NC_LIST then maxRows.getD c 0
      else climbToList colPars colCats maxRows fuel p

/-- `gather_column_info` (json_column.cu): stable-sort node ids by
column id, reduce each column's run to its max row offset and its
unified category, keep the first node's parent/level/range per column
(`unique_by_key_copy`), convert parent node ids to parent column ids,
and copy every list's max row offset down to its non-list-parented
descendants.  Returns the column tree (as a `TreeMeta` over columns)
and the per-column max row offsets. -/
def gatherColumnInfo (tm : TreeMeta) (colIds rowOffs : List Nat) :
    TreeMeta × List Nat :=
  let numCols := numColumns colIds
  let buckets := (List.range numCols).map (colBucket colIds)
  let maxRows := buckets.map (fun b => b.foldl (fun m i => Nat.max m (rowOffs.getD i 0)) 0)
  let colCats := buckets.map (fun b =>
    match b with
    | [] => NC_ERR
    | h :: t => t.foldl (fun acc i => unifyCategories acc (tm.cats.getD i NC_ERR))
        (tm.cats.getD h NC_ERR))
  let firstNode := fun (b : List Nat) => b.headD 0
  let colPars : List (Option Nat) := buckets.map (fun b =>
    (tm.pars.getD (firstNode b) none).map (fun p => colIds.getD p 0))
  let colLevs := buckets.map (fun b => tm.levs.getD (firstNode b) 0)
  let colRB := buckets.map (fun b => tm.rangeBeg.getD (firstNode b) 0)
  let colRE := buckets.map (fun b => tm.rangeEnd.getD (firstNode b) 0)
  let maxRows2 := (List.range numCols).map (fun c =>
    match colPars.getD c none with
    | none => maxRows.getD c 0
    | some p =>
      if colCats.getD p NC_ERR == NC_LIST then maxRows.getD c 0
      else climbToList colPars colCats maxRows numCols c)
  (⟨colCats, colPars, colLevs, colRB, colRE⟩, maxRows2)

/-- Column kinds of the in-flight device JSON column (`json_col_t`). -/
inductive JsonColT where
  | Unknown
  | StringColumn
  | ListColumn
  | StructColumn
deriving DecidableEq, Repr

/-- Buffers of one in-flight column (`d_json_column` /
`json_column_data`): the validity bitmask is modelled as a list of
booleans of length `num_rows`. -/
structure ColBufs where
  ctype : JsonColT := JsonColT.Unknown
  stringOffsets : List Nat := []
  stringLengths : List Nat := []
  childOffsets : List Nat := []
  validity : List Bool := []
  currentOffset : Nat := 0
deriving Repr, DecidableEq

instance : Inhabited ColBufs := ⟨{}⟩

/-- `initialize_json_columns` of `make_json_column2`: `NC_ERR` and
`NC_FN` columns get nothing; String/Value columns get zeroed
`string_offsets`/`string_lengths` of `max_row_offsets+1`; List columns
a zeroed `child_offsets` of `max_row_offsets+2`; every initialized
column an all-invalid validity mask and `num_rows = max_row_offsets+1`. -/
def initializeJsonColumns (cat : NodeCat) (maxRow : Nat) : ColBufs :=
  if cat == NC_ERR || cat == NC_FN then {}
  else
    let rows := maxRow + 1
    let base : ColBufs :=
      { ctype :=
          match cat with
          | NC_STRUCT => JsonColT.StructColumn
          | NC_LIST => JsonColT.ListColumn
          | _ => JsonColT.StringColumn
        validity := List.replicate rows false
        currentOffset := rows }
    if cat == NC_VAL || cat == NC_STR then
      { base with stringOffsets := List.replicate rows 0,
                  stringLengths := List.replicate rows 0 }
    else if cat == NC_LIST then
      { base with childOffsets := List.replicate (rows + 1) 0 }
    else base

/-- The state of `make_json_column2`'s host tree-building loop, as an
arena: per-column buffers; the `columns` hash map as the list of
registered column ids; the `ignore_vals` flags; `mapped_columns`
((parent column, field name) to child column) and the insertion-ordered
`column_order` entries of every parent. -/
structure BuildSt where
  bufs : List ColBufs
  registered : List Nat
  ignore : List Bool
  childMap : List ((Nat × List Char) × Nat)
  order : List (Nat × List Char)
deriving Repr

/-- One insertion step of a stable insertion sort by key. -/
def insertByKey (x : Nat × Nat) : List (Nat × Nat) → List (Nat × Nat)
  | [] => [x]
  | y :: t => if x.1 < y.1 then x :: y :: t else y :: insertByKey x t

/-- Stable insertion sort of (key, value) pairs by key (the source
sorts with `std::sort`; the keys — first-node input offsets — are
pairwise distinct, so stability does not matter there). -/
def sortByKey (l : List (Nat × Nat)) : List (Nat × Nat) :=
  l.foldr insertByKey []

/-- Column ids reordered by their `column_range_begin` (the source
reorders `unique_col_ids` so columns come in field order; first nodes
of distinct columns sit at distinct input offsets). -/
def colSortedByRange (colTree : TreeMeta) (numCols : Nat) : List Nat :=
  (sortByKey ((List.range numCols).map (fun c => (colTree.rangeBeg.getD c 0, c)))).map
    (fun x => x.2)

/-- The field name a column was materialized under: the slice of the
input covered by the (field-name) column's range (`column_names` of
`make_json_column2`). -/
def colNameOf (input : List Char) (colTree : TreeMeta) (c : Nat) : List Char :=
  sliceRange input (colTree.rangeBeg.getD c 0) (colTree.rangeEnd.getD c 0)

/-- Insertion of a fresh child column into the tree state. -/
def insertCol (st : BuildSt) (c parentCol : Nat) (name : List Char) : BuildSt :=
  { st with
    childMap := st.childMap ++ [((parentCol, name), c)]
    order := st.order ++ [(parentCol, name)]
    registered := st.registered ++ [c] }

/-- The host tree-building loop of `make_json_column2` over the columns
in `column_range_begin` order (the first entry is the root): `NC_ERR`
and `NC_FN` columns are skipped; the field name and true parent are
read through a field-name parent column ("element" under a list); on a
duplicate (parent, name): a new Value column is ignored, an old Value
column is ignored and replaced, and any other duplicate is a fatal
"duplicate column name".  Every column's buffers are allocated by
`initialize_json_columns`. -/
def buildColumnTree (input : List Char) (colTree : TreeMeta) (maxRows : List Nat)
    (numCols : Nat) : Except String BuildSt :=
  let bufs0 := (List.range numCols).map (fun c =>
    initializeJsonColumns (colTree.cats.getD c NC_ERR) (maxRows.getD c 0))
  let sorted := colSortedByRange colTree numCols
  let st0 : BuildSt :=
    { bufs := bufs0, registered := [sorted.headD 0]
      ignore := List.replicate numCols false, childMap := [], order := [] }
  go (sorted.drop 1) st0
where
  go : List Nat → BuildSt → Except String BuildSt
    | [], st => .ok st
    | c :: rest, st =>
      let cat := colTree.cats.getD c NC_ERR
      if cat == NC_ERR || cat == NC_FN then go rest st
      else
        match colTree.pars.getD c none with
        | none => .error "Unexpected parent column category"
        | some p =>
          let resolved : Except String (List Char × Nat) :=
            if colTree.cats.getD p NC_ERR == NC_FN then
              match colTree.pars.getD p none with
              | none => .error "Unexpected parent column category"
              | some pp => .ok (colNameOf input colTree p, pp)
            else if colTree.cats.getD p NC_ERR == NC_LIST then .ok ("element".data, p)
            else .error "Unexpected parent column category"
          match resolved with
          | .error e => .error e
          | .ok (name, parentCol) =>
            if !(st.registered.contains parentCol) then .error "Parent column not found"
            else
              match st.childMap.find? (fun kv => kv.1 == (parentCol, name)) with
              | some kv =>
                if cat == NC_VAL then go rest { st with ignore := st.ignore.set c true }
                else if colTree.cats.getD kv.2 NC_ERR == NC_VAL then
                  let st' : BuildSt :=
                    { st with
                      ignore := st.ignore.set kv.2 true
                      childMap := st.childMap.filter (fun kv2 => !(kv2.1 == (parentCol, name)))
                      registered := st.registered.filter (fun r => !(r == kv.2)) }
                  go rest (insertCol st' c parentCol name)
                else .error "duplicate column name"
              | none => go rest (insertCol st c parentCol name)

/-- Pointwise update of one column's buffers (writes through the
`json_column_data` pointers; a column that was never given buffers —
`NC_FN`/`NC_ERR` — has empty lists, on which the row updates below are
no-ops, matching that the source never dereferences those columns). -/
def updBuf (bufs : List ColBufs) (c : Nat) (f : ColBufs → ColBufs) : List ColBufs :=
  bufs.set c (f (bufs.getD c default))

/-- The first device scatter of `make_json_column2`: per node, set the
validity bit of its (column, row); String and non-ignored Value nodes
also write their byte range into `string_offsets`/`string_lengths`. -/
def scatterValidityStrings (tm : TreeMeta) (colIds rowOffs : List Nat)
    (ignore : List Bool) (bufs : List ColBufs) : List ColBufs :=
  (List.range tm.cats.length).foldl
    (fun bufs i =>
      let c := colIds.getD i 0
      let r := rowOffs.getD i 0
      let strWrite := fun (b : ColBufs) =>
        { b with
          validity := b.validity.set r true
          stringOffsets := b.stringOffsets.set r (tm.rangeBeg.getD i 0)
          stringLengths := b.stringLengths.set r (tm.rangeEnd.getD i 0 - tm.rangeBeg.getD i 0) }
      match tm.cats.getD i NC_ERR with
      | NC_STRUCT => updBuf bufs c (fun b => { b with validity := b.validity.set r true })
      | NC_LIST => updBuf bufs c (fun b => { b with validity := b.validity.set r true })
      | NC_VAL => if ignore.getD c false then bufs else updBuf bufs c strWrite
      | NC_STR => updBuf bufs c strWrite
      | _ => bufs)
    bufs

/-- The list-offset scatter of `make_json_column2`: over the nodes in
stable column-id order, every node whose parent node is a List writes,
at the start of its (column, parent) run, its row offset into the
parent's `child_offsets[parent row]`, and at the end of its column run
its row offset + 1 into `child_offsets[parent row + 1]`.  The source's
end-of-run test reads `col_ids[i + 1]` at the last position (an
out-of-bounds read); it is modelled as the evidently intended
last-element test, as the later revision of the same loop writes it. -/
def scatterListOffsets (tm : TreeMeta) (colIds rowOffs : List Nat) (numCols : Nat)
    (bufs : List ColBufs) : List ColBufs :=
  let sorted := sortedNodeIds colIds numCols
  let n := sorted.length
  (List.range n).foldl
    (fun bufs i =>
      let node := sorted.getD i 0
      match tm.pars.getD node none with
      | some p =>
        if tm.cats.getD p NC_ERR == NC_LIST then
          let pcol := colIds.getD p 0
          let prow := rowOffs.getD p 0
          let firstRun := i == 0 || colIds.getD (sorted.getD (i - 1) 0) 0 != colIds.getD node 0
            || !(tm.pars.getD (sorted.getD (i - 1) 0) none == some p)
          let bufs1 :=
            if firstRun then
              updBuf bufs pcol (fun b =>
                { b with childOffsets := b.childOffsets.set prow (rowOffs.getD node 0) })
            else bufs
          let lastRun := i == n - 1 || colIds.getD node 0 != colIds.getD (sorted.getD (i + 1) 0) 0
          if lastRun then
            updBuf bufs1 pcol (fun b =>
              { b with childOffsets := b.childOffsets.set (prow + 1) (rowOffs.getD node 0 + 1) })
          else bufs1
        else bufs
      | none => bufs)
    bufs

/-- The per-column scan step of `make_json_column2` for one column: an
inclusive max-scan over `string_offsets` of a String column or
`child_offsets` of a List column; other columns are untouched. -/
def scanColOffsets (b : ColBufs) : ColBufs :=
  match b.ctype with
  | JsonColT.StringColumn => { b with stringOffsets := maxScan b.stringOffsets }
  | JsonColT.ListColumn => { b with childOffsets := maxScan b.childOffsets }
  | _ => b

/-- The scan loop over the registered columns. -/
def scanRegistered (registered : List Nat) (bufs : List ColBufs) : List ColBufs :=
  registered.foldl (fun bufs c => updBuf bufs c scanColOffsets) bufs

/-- `make_json_column2`: build the column tree, scatter validity and
string ranges, scatter list offsets and run the offset scans. -/
def makeJsonColumn2 (input : List Char) (tm : TreeMeta) (colIds rowOffs : List Nat)
    (colTree : TreeMeta) (maxRows : List Nat) : Except String BuildSt := do
  let numCols := numColumns colIds
  let st ← buildColumnTree input colTree maxRows numCols
  let bufs1 := scatterValidityStrings tm colIds rowOffs st.ignore st.bufs
  let bufs2 := scatterListOffsets tm colIds rowOffs numCols bufs1
  let bufs3 := scanRegistered st.registered bufs2
  return { st with bufs := bufs3 }

/-- A finished output column at the caster boundary
(`json_column_to_cudf_column2`): a String column holds the raw row
value slices handed to the string/type caster; struct and list columns
hold their children and offsets. -/
inductive OutCol where
  | str (values : List (List Char)) (valid : List Bool)
  | strct (numRows : Nat) (children : List (List Char × OutCol)) (valid : List Bool)
  | list (offsets : List Nat) (childName : List Char) (child : OutCol) (valid : List Bool)
deriving Repr

/-- Row count of an output column (`column->size()`). -/
def OutCol.size : OutCol → Nat
  | .str v _ => v.length
  | .strct n _ _ => n
  | .list off _ _ _ => off.length - 1

/-- The children of a column in `column_order` (insertion) order, with
their column ids. -/
def childrenOf (st : BuildSt) (c : Nat) : List (List Char × Nat) :=
  (st.order.filter (fun pn => pn.1 == c)).map (fun pn =>
    (pn.2, ((st.childMap.find? (fun kv => kv.1 == (c, pn.2))).map (fun kv => kv.2)).getD 0))

/-- Sequencing of named conversion results: the first error wins,
otherwise the list of named columns. -/
def collectNamed : List (List Char × Except String OutCol) →
    Except String (List (List Char × OutCol))
  | [] => .ok []
  | (_, .error e) :: _ => .error e
  | (nm, .ok col) :: rest =>
    match collectNamed rest with
    | .error e => .error e
    | .ok others => .ok ((nm, col) :: others)

/-- `json_column_to_cudf_column2`: a String column turns its
(offset, length) pairs into the row value slices; a Struct column
converts its children in `column_order` and requires them all to have
the parent's row count; a List column converts its released
`child_offsets` and its single child.  `fuel` bounds the recursion
depth (the column tree is finite). -/
def toCudfColumn (input : List Char) (st : BuildSt) : Nat → Nat → Except String OutCol
  | 0, _ => .error "Unsupported column type, yet to be implemented"
  | fuel + 1, c =>
    let b := st.bufs.getD c default
    match b.ctype with
    | JsonColT.StringColumn =>
      if b.stringOffsets.length != b.stringLengths.length then
        .error "string offset, string length mismatch"
      else
        .ok (OutCol.str
          ((b.stringOffsets.zip b.stringLengths).map (fun ol =>
            sliceRange input ol.1 (ol.1 + ol.2))) b.validity)
    | JsonColT.StructColumn =>
      match collectNamed ((childrenOf st c).map (fun nc =>
          (nc.1, toCudfColumn input st fuel nc.2))) with
      | .error e => .error e
      | .ok kids =>
        if kids.all (fun k => k.2.size == b.currentOffset) then
          .ok (OutCol.strct b.currentOffset kids b.validity)
        else .error "All children columns must have the same size"
    | JsonColT.ListColumn =>
      match childrenOf st c with
      | [] => .error "List column without a child column"
      | (nm, cc) :: _ =>
        match toCudfColumn input st fuel cc with
        | .error e => .error e
        | .ok child => .ok (OutCol.list b.childOffsets nm child b.validity)
    | JsonColT.Unknown => .error "Unsupported column type, yet to be implemented"

/-- Conversion of a list of named child columns. -/
def toCudfChildren (input : List Char) (st : BuildSt) (fuel : Nat)
    (l : List (List Char × Nat)) : Except String (List (List Char × OutCol)) :=
  collectNamed (l.map (fun nc => (nc.1, toCudfColumn input st fuel nc.2)))

/-- The pipeline of `parse_nested_json2` up to and including column
materialization: token stream, node tree, column ids and row offsets,
column tree and the materialized column arena.  Returns the build
state and the root column id. -/
def materializeRoot (input : List Char) : Except String (BuildSt × Nat) := do
  let tm ← getTreeRepresentation input
  let (colIds, rowOffs) := recordsOrientTraversal input tm
  let (colTree, maxRows) := gatherColumnInfo tm colIds rowOffs
  let st ← makeJsonColumn2 input tm colIds rowOffs colTree maxRows
  return (st, (colSortedByRange colTree (numColumns colIds)).headD 0)

/-- The array-of-objects precondition of `parse_nested_json2`: the data
root is a List column with exactly one child column, of Struct type. -/
def rootShapeOk (st : BuildSt) (rootId : Nat) : Bool :=
  let kids := childrenOf st rootId
  (st.bufs.getD rootId default).ctype == JsonColT.ListColumn
    && kids.length == 1
    && (st.bufs.getD (kids.headD ([], 0)).2 default).ctype == JsonColT.StructColumn

/-- `parse_nested_json2`: materialize, enforce the array-of-objects
precondition, then slice off the root list and convert the root
struct's children to output columns (name, column). -/
def parseNestedJson2 (input : List Char) : Except String (List (List Char × OutCol)) := do
  let (st, rootId) ← materializeRoot input
  if rootShapeOk st rootId then
    let structId := ((childrenOf st rootId).headD ([], 0)).2
    toCudfChildren input st (st.bufs.length + 1) (childrenOf st structId)
  else
    .error "Currently the nested JSON parser only supports an array of (nested) objects"

/-! ## Device String/Type Caster
(io/utilities/data_casting.cu: `process_string`, `string_parse`,
`parse_fn_string_parallel`). -/

/-- Result of casting one item (`data_casting_result`). -/
inductive CastResult where
  | PARSING_SUCCESS
  | PARSED_TO_NULL
  | PARSING_FAILURE
deriving DecidableEq, Repr

/-- Options consumed by the caster (the `quotechar` and `keepquotes`
fields of `parse_options_view`; the source's `'\0'` quote character is
the NUL character). -/
structure CastOpts where
  quotechar : Char := '"'
  keepquotes : Bool := false
deriving Repr

/-- Result of `get_escape_char`: the source returns the decoded
character, or the `UNICODE_SEQ` (0x7F) marker for `u`, or the
`NON_ESCAPE_CHAR` (0x7E) marker for an unrecognized escape. -/
inductive EscapeResult where
  | ch (c : Char)
  | unicodeSeq
  | nonEscape
deriving DecidableEq, Repr

/-- `get_escape_char`: the character to output for a character that
follows a backslash. -/
def getEscapeChar (c : Char) : EscapeResult :=
  if c == '"' then .ch '"'
  else if c == '\\' then .ch '\\'
  else if c == '/' then .ch '/'
  else if c == 'b' then .ch (Char.ofNat 8)
  else if c == 'f' then .ch (Char.ofNat 12)
  else if c == 'n' then .ch (Char.ofNat 10)
  else if c == 'r' then .ch (Char.ofNat 13)
  else if c == 't' then .ch (Char.ofNat 9)
  else if c == 'u' then .unicodeSeq
  else .nonEscape

/-- One hex digit's value, if the character is a hex digit. -/
def hexDigitVal (c : Char) : Option Nat :=
  if '0' ≤ c && c ≤ '9' then some (c.toNat - '0'.toNat)
  else if 'A' ≤ c && c ≤ 'F' then some (c.toNat - 'A'.toNat + 10)
  else if 'a' ≤ c && c ≤ 'f' then some (c.toNat - 'a'.toNat + 10)
  else none

/-- `parse_unicode_hex`: the value of the four hex digits of a
`\uXXXX` escape; `none` models the source's -1 failure value. -/
def parseUnicodeHex (l : List Char) : Option Nat :=
  match l with
  | [a, b, c, d] => do
    let va ← hexDigitVal a
    let vb ← hexDigitVal b
    let vc ← hexDigitVal c
    let vd ← hexDigitVal d
    return ((va * 16 + vb) * 16 + vc) * 16 + vd
  | _ => none

/-- Modelled from the spec: `codepoint_to_utf8`/`bytes_in_char_utf8` of
the external strings utility header (not part of the repository's
files) — the standard UTF-8 encoding of a code point ("`\uXXXX`, and
UTF-16 surrogate pairs → single UTF-8 codepoint"). -/
def utf8enc (cp : Nat) : List Nat :=
  if cp < 0x80 then [cp]
  else if cp < 0x800 then [0xC0 + cp / 64, 0x80 + cp % 64]
  else if cp < 0x10000 then [0xE0 + cp / 4096, 0x80 + cp / 64 % 64, 0x80 + cp % 64]
  else [0xF0 + cp / 262144, 0x80 + cp / 4096 % 64, 0x80 + cp / 64 % 64, 0x80 + cp % 64]

/-- Whether the first hex value of a possible surrogate pair is a UTF-16
high surrogate and the second a low surrogate
(`UTF16_HIGH_SURROGATE_BEGIN/END`, `UTF16_LOW_SURROGATE_BEGIN/END`).
The source's `hex_low_val` stays 0 (or -1 on a failed parse) when no
second `\uXXXX` follows, which fails the low-surrogate range test
exactly when this `Option` is `none`. -/
def isSurrogatePair (hex : Nat) (hexLow : Option Nat) : Bool :=
  decide (0xD800 ≤ hex) && decide (hex < 0xDC00) &&
    (match hexLow with
     | some lv => decide (0xDC00 ≤ lv) && decide (lv < 0xE000)
     | none => false)

/-- The escape-replacing loop of `process_string` over the quote-less
character range; the fuel argument only bounds the recursion (every
step consumes at least one character, so `length + 1` fuel never runs
out).  Returns (bytes written, output bytes, result): an
unrecognized escape character, a `\u` without four valid hex digits, or
a backslash ending the input yield `PARSING_FAILURE` with the bytes
written so far; a lone (unpaired) `\uXXXX` — including an orphaned low
surrogate — is written as the UTF-8 encoding of its code point. -/
def psLoop : Nat → List Char → Nat × List Nat × CastResult
  | 0, _ => (0, [], .PARSING_FAILURE)
  | _ + 1, [] => (0, [], .PARSING_SUCCESS)
  | fuel + 1, c :: rest =>
    if !(c == '\\') then
      let (b, out, res) := psLoop fuel rest
      (b + 1, c.toNat :: out, res)
    else
      match rest with
      | [] => (0, [], .PARSING_FAILURE)
      | e :: rest2 =>
        match getEscapeChar e with
        | .nonEscape => (0, [], .PARSING_FAILURE)
        | .ch ec =>
          let (b, out, res) := psLoop fuel rest2
          (b + 1, ec.toNat :: out, res)
        | .unicodeSeq =>
          if rest2.length < 4 then (0, [], .PARSING_FAILURE)
          else
            match parseUnicodeHex (rest2.take 4) with
            | none => (0, [], .PARSING_FAILURE)
            | some hex =>
              let rest6 := rest2.drop 4
              let hexLow : Option Nat :=
                if decide (6 ≤ rest6.length) && (rest6.getD 0 ' ' == '\\')
                    && (rest6.getD 1 ' ' == 'u') then
                  parseUnicodeHex ((rest6.drop 2).take 4)
                else none
              if isSurrogatePair hex hexLow then
                let enc := utf8enc (0x10000 + (hex - 0xD800) * 1024 + (hexLow.getD 0 - 0xDC00))
                let (b, out, res) := psLoop fuel (rest6.drop 6)
                (b + enc.length, enc ++ out, res)
              else
                let enc := utf8enc hex
                let (b, out, res) := psLoop fuel rest6
                (b + enc.length, enc ++ out, res)

/-- `process_string`: a span that does not carry the configured
surrounding quote characters is copied verbatim
(`PARSING_SUCCESS`); otherwise the quotes are stripped (unless
`keepquotes`) and the escape-replacing loop runs. -/
def processString (opts : CastOpts) (l : List Char) : Nat × List Nat × CastResult :=
  let numIn := l.length
  let isStringValue := decide (2 ≤ numIn) &&
    (opts.quotechar == Char.ofNat 0 ||
      (l.headD ' ' == opts.quotechar && l.getLastD ' ' == opts.quotechar))
  if !isStringValue then (numIn, l.map Char.toNat, .PARSING_SUCCESS)
  else psLoop (l.length + 1) (if opts.keepquotes then l else (l.drop 1).dropLast)

/-- The observable state of one caster batch: per-row validity bits,
the device-wide null counter, the per-row byte counts (`d_offsets`,
written by the size-only pass) and the per-row output bytes
(`d_chars`, written by the fill pass). -/
structure CasterState where
  validity : List Bool
  nullCount : Nat
  offsets : List Nat
  outputs : List (List Nat)
deriving Repr, DecidableEq

/-- One row of the `string_parse` functor (`operator()`): a row whose
validity bit is already clear is skipped before the null-literal trie
test (only `d_offsets[idx] = 0` is written, in the size-only pass); a
null-literal row and a row whose `process_string` fails clear the bit
and bump the atomic null counter; otherwise the size-only pass records
the byte count and the fill pass the bytes.  `trieNa` stands for the
`serialized_trie_contains` membership test of `options.trie_na`. -/
def stringParseRow (trieNa : List Char → Bool) (opts : CastOpts)
    (spans : List (List Char)) (sizeOnly : Bool) (st : CasterState) (idx : Nat) :
    CasterState :=
  if !(st.validity.getD idx false) then
    if sizeOnly then { st with offsets := st.offsets.set idx 0 } else st
  else
    let span := spans.getD idx []
    if sizeOnly && trieNa span then
      { st with
        validity := st.validity.set idx false
        nullCount := st.nullCount + 1
        offsets := st.offsets.set idx 0 }
    else
      let (bytes, out, res) := processString opts span
      if !(res == .PARSING_SUCCESS) then
        { st with
          validity := st.validity.set idx false
          nullCount := st.nullCount + 1
          offsets := if sizeOnly then st.offsets.set idx 0 else st.offsets
          outputs := if sizeOnly then st.outputs else st.outputs.set idx out }
      else
        if sizeOnly then { st with offsets := st.offsets.set idx bytes }
        else { st with outputs := st.outputs.set idx out }

/-- One pass of the caster over a whole batch: every row is processed
(one thread per row). -/
def stringParseBatch (trieNa : List Char → Bool) (opts : CastOpts)
    (spans : List (List Char)) (sizeOnly : Bool) (st : CasterState) : CasterState :=
  (List.range spans.length).foldl (stringParseRow trieNa opts spans sizeOnly) st

/-- The `is_hex` test of `parse_fn_string_parallel`. -/
def isHexDigit (c : Char) : Bool :=
  ('0' ≤ c && c ≤ '9') || ('A' ≤ c && c ≤ 'F') || ('a' ≤ c && c ≤ 'f')

/-- The per-character escaping-backslash states of the warp/block
decoder's two-state scan (`state_table`/`composite_op`): character `i`
is an escaping backslash iff it is a backslash and character `i-1` is
not an escaping backslash.  The scan's associative composition makes
the whole warp agree with this sequential recurrence. -/
def escapingStates (l : List Char) : List Bool :=
  (l.foldl (fun acc c =>
    let s := c == '\\' && !acc.headD false
    s :: acc) []).reverse

/-- The error test of `parse_fn_string_parallel` at character `i` (the
in-bounds branch): an escaping backslash at the last position, a
backslash followed by an unrecognized escape character (the raw
previous character, `prev_c == '\\'`), or `\u` without four in-bounds
hex digits after it. -/
def warpErrorAt (l : List Char) (esc : List Bool) (i : Nat) : Bool :=
  let c := l.getD i (Char.ofNat 0)
  let prev := if 0 < i then l.getD (i - 1) (Char.ofNat 0) else Char.ofNat 0
  (esc.getD i false && i == l.length - 1)
    || (prev == '\\' && getEscapeChar c == .nonEscape)
    || (prev == '\\' && c == 'u' &&
        (decide (l.length ≤ i + 4)
          || !(isHexDigit (l.getD (i + 1) (Char.ofNat 0))
            && isHexDigit (l.getD (i + 2) (Char.ofNat 0))
            && isHexDigit (l.getD (i + 3) (Char.ofNat 0))
            && isHexDigit (l.getD (i + 4) (Char.ofNat 0)))))

/-- The skip test of `parse_fn_string_parallel` at character `i`: an
escaping backslash, or one of the four positions following a `\u`
prefix. -/
def warpSkipAt (l : List Char) (esc : List Bool) (i : Nat) : Bool :=
  esc.getD i false
    || (decide (2 ≤ i) && l.getD (i - 2) (Char.ofNat 0) == '\\' && l.getD (i - 1) (Char.ofNat 0) == 'u')
    || (decide (3 ≤ i) && l.getD (i - 3) (Char.ofNat 0) == '\\' && l.getD (i - 2) (Char.ofNat 0) == 'u')
    || (decide (4 ≤ i) && l.getD (i - 4) (Char.ofNat 0) == '\\' && l.getD (i - 3) (Char.ofNat 0) == 'u')
    || (decide (5 ≤ i) && l.getD (i - 5) (Char.ofNat 0) == '\\' && l.getD (i - 4) (Char.ofNat 0) == 'u')

/-- The bytes character `i` contributes in the warp/block decoder
(its `this_num_out`/`write_char`): a non-skipped character is written
through the raw-previous-character escape test (`prev_c != '\\'`); a
`\u` writer decodes its `\uXXXX` (pairing with a following low
surrogate when present); an orphaned low surrogate is skipped, writing
nothing. -/
def warpOutAt (l : List Char) (esc : List Bool) (i : Nat) : List Nat :=
  if warpSkipAt l esc i then []
  else
    let c := l.getD i (Char.ofNat 0)
    let prev := if 0 < i then l.getD (i - 1) (Char.ofNat 0) else Char.ofNat 0
    if !(prev == '\\') then [c.toNat]
    else
      match getEscapeChar c with
      | .ch ec => [ec.toNat]
      | .nonEscape => []
      | .unicodeSeq =>
        let hex := (parseUnicodeHex ((l.drop (i + 1)).take 4)).getD 0
        let hexLow : Option Nat :=
          if decide (i + 10 < l.length) && l.getD (i + 5) (Char.ofNat 0) == '\\'
              && l.getD (i + 6) (Char.ofNat 0) == 'u' then
            parseUnicodeHex ((l.drop (i + 7)).take 4)
          else none
        if isSurrogatePair hex hexLow then
          utf8enc (0x10000 + (hex - 0xD800) * 1024 + (hexLow.getD 0 - 0xDC00))
        else if decide (0xDC00 ≤ hex) && decide (hex < 0xE000) then []
        else utf8enc hex

/-- The warp/block decode of one quote-stripped string: `none` when any
character flags an error (the row is nulled and the collaborating
threads quit), otherwise the bytes of all characters in order,
with the byte count the exclusive-scan total. -/
def warpDecode (l : List Char) : Option (Nat × List Nat) :=
  let esc := escapingStates l
  if (List.range l.length).any (warpErrorAt l esc) then none
  else
    let outs := (List.range l.length).map (warpOutAt l esc)
    some ((outs.map List.length).foldl (· + ·) 0, outs.flatten)

/-- Observable outcome of decoding one row: the row is either nulled
(validity cleared, null counter bumped) or produced with a byte count
and output bytes. -/
inductive RowOutcome where
  | nulled
  | produced (bytes : Nat) (out : List Nat)
deriving DecidableEq, Repr

/-- Outcome of one row under the sequential (`< 128` bytes) path:
`string_parse::operator()` over `process_string`. -/
def seqRowOutcome (trieNa : List Char → Bool) (opts : CastOpts) (span : List Char) :
    RowOutcome :=
  if trieNa span then .nulled
  else
    let (bytes, out, res) := processString opts span
    if !(res == .PARSING_SUCCESS) then .nulled else .produced bytes out

/-- Outcome of one row under the warp (≤ 1024 bytes) / block (larger)
path of `parse_fn_string_parallel`: the same null-literal and
string-value preamble, then the warp/block character decode. -/
def warpRowOutcome (trieNa : List Char → Bool) (opts : CastOpts) (span : List Char) :
    RowOutcome :=
  if trieNa span then .nulled
  else
    let numIn := span.length
    let isStringValue := decide (2 ≤ numIn) &&
      (opts.quotechar == Char.ofNat 0 ||
        (span.headD ' ' == opts.quotechar && span.getLastD ' ' == opts.quotechar))
    if !isStringValue then .produced numIn (span.map Char.toNat)
    else
      match warpDecode (if opts.keepquotes then span else (span.drop 1).dropLast) with
      | none => .nulled
      | some (bytes, out) => .produced bytes out

/-! ## Named properties and concrete inputs used by the theorems. -/

/-- The per-node forest property: a node either has the sentinel parent
(and then sits at level 0), or its parent was created before it and its
level is the parent's level plus one. -/
def GoodNode (tm : TreeMeta) (i : Nat) : Prop :=
  (tm.pars.getD i none = none → tm.levs.getD i 0 = 0) ∧
  (∀ p, tm.pars.getD i none = some p →
    p < i ∧ tm.levs.getD i 0 = tm.levs.getD p 0 + 1)

/-- The tree builder's loop invariant: the arrays are aligned; every
already-emitted node satisfies the forest property; and the stack entry
at distance `j` from the top names an existing node whose level is its
depth from the bottom of the stack. -/
def StackInv (tm : TreeMeta) (stk : List (Nat × Bool)) : Prop :=
  tm.pars.length = tm.cats.length ∧
  tm.levs.length = tm.cats.length ∧
  (∀ i, i < tm.cats.length → GoodNode tm i) ∧
  (∀ j, j < stk.length →
    (stk.getD j (0, false)).1 < tm.cats.length ∧
    tm.levs.getD (stk.getD j (0, false)).1 0 = stk.length - 1 - j)

/-- The opening and closing braces as characters. -/
def obr : Char := Char.ofNat 123

/-- The closing brace character. -/
def cbr : Char := Char.ofNat 125

/-- The worked-example input of the spec's scenario 1:
two records with fields "a" and "b" holding number literals. -/
def jsonInputC4 : List Char :=
  '[' :: obr :: "\"a\":0.0,\"b\":1.0".data ++ cbr :: ',' :: obr ::
    "\"a\":0.1,\"b\":1.1".data ++ [cbr, ']']

/-- Two bare root-level values: the tokenizer reaches its error state
at the second one, and the tree builder emits two root nodes. -/
def jsonTwoRoots : List Char := "1 2".data

/-- An array with one record holding one two-character string value. -/
def jsonInputXY : List Char :=
  '[' :: obr :: "\"a\":\"xy\"".data ++ [cbr, ']']

/-- A bare value at the root: a shape the array-of-objects check
rejects. -/
def jsonBareValue : List Char := "1".data

/-- The null-literal trie of a configuration with no null spellings. -/
def noNullTrie : List Char → Bool := fun _ => false

/-- A quoted span holding an escaped backslash followed by `q`
(`"\q"` once the JSON escaping of the source text is applied). -/
def spanEscBackslashQ : List Char := ['"', '\\', '\\', 'q', '"']

/-- A quoted span holding a lone low-surrogate escape `\uDC00`. -/
def spanLowSurrogate : List Char := "\"\\uDC00\"".data

/-- A quoted span ending in a bare backslash. -/
def spanBackslashEnd : List Char := ['"', 'a', 'b', '\\', '"']

/-- A quoted span holding the unrecognized escape `\q`. -/
def spanBadEscape : List Char := ['"', '\\', 'q', '"']

/-- A quoted span holding a `\u` escape without four valid hex digits. -/
def spanBadHex : List Char := "\"\\u12G4\"".data

/-- The node tree the builder produces for `jsonTwoRoots`. -/
def twoRootsTree : TreeMeta :=
  ⟨[NC_VAL, NC_ERR], [none, none], [0, 0], [0, 2], [1, 3]⟩

/-- The token stream of `jsonInputC4`. -/
def toksC4 : List (Token × Nat) := getTokenStream jsonInputC4

/-- The node tree of `jsonInputC4` (the builder's output on `toksC4`). -/
def tmC4 : TreeMeta :=
  ⟨[NC_LIST, NC_STRUCT, NC_FN, NC_VAL, NC_FN, NC_VAL,
    NC_STRUCT, NC_FN, NC_VAL, NC_FN, NC_VAL],
   [none, some 0, some 1, some 2, some 1, some 4,
    some 0, some 6, some 7, some 6, some 9],
   [0, 1, 2, 3, 2, 3, 1, 2, 3, 2, 3],
   [0, 1, 3, 6, 11, 14, 19, 21, 24, 29, 32],
   [1, 2, 4, 9, 12, 17, 20, 22, 27, 30, 35]⟩

/-- The materializer state for the bare-value input (one String column,
one row). -/
def stBareValue : BuildSt :=
  { bufs := [{ ctype := JsonColT.StringColumn, stringOffsets := [0],
               stringLengths := [1], childOffsets := [],
               validity := [true], currentOffset := 1 }]
    registered := [0], ignore := [false], childMap := [], order := [] }

/-! ## Theorems. -/

/-- Reading a `getD` through a `set` at a different index. -/
theorem getD_set_ne {α : Type} (l : List α) (i j : Nat) (a d : α) (h : j ≠ i) :
    (l.set i a).getD j d = l.getD j d := by
  rw [List.getD_eq_getElem?_getD, List.getD_eq_getElem?_getD,
    List.getElem?_set_ne (by omega)]

/-- C1.  The column-category unification operator of the Column Tree
Reducer maps category pairs as the spec states: identical categories
unify to themselves; a leaf (String or Value) with a nested category
(Struct or List) yields the nested category; a leaf with the field-name
category yields Error; String with Value yields String; and every other
combination of distinct categories yields Error. -/
theorem unify_matches_claimed_table :
    ∀ a b : NodeCat,
      (a = b → unifyCategories a b = a) ∧
      (isLeafCat a = true → (b = NC_STRUCT ∨ b = NC_LIST) → unifyCategories a b = b) ∧
      ((a = NC_STRUCT ∨ a = NC_LIST) → isLeafCat b = true → unifyCategories a b = a) ∧
      (isLeafCat a = true → b = NC_FN → unifyCategories a b = NC_ERR) ∧
      (a = NC_FN → isLeafCat b = true → unifyCategories a b = NC_ERR) ∧
      ((a = NC_STR ∧ b = NC_VAL) ∨ (a = NC_VAL ∧ b = NC_STR) →
        unifyCategories a b = NC_STR) ∧
      ((a ≠ b ∧ ¬(isLeafCat a = true ∨ isLeafCat b = true)) →
        unifyCategories a b = NC_ERR) ∧
      ((a ≠ b ∧ isLeafCat a = true ∧ b = NC_ERR) → unifyCategories a b = NC_ERR) ∧
      ((a ≠ b ∧ isLeafCat b = true ∧ a = NC_ERR) → unifyCategories a b = NC_ERR) := by
  decide

/-- C2.  The category unification operator is commutative and
associative, and reducing a run of categories (as a `reduce_by_key`
does) is invariant under permuting the run. -/
theorem unify_comm_assoc_perm :
    (∀ a b : NodeCat, unifyCategories a b = unifyCategories b a) ∧
    (∀ a b c : NodeCat,
      unifyCategories (unifyCategories a b) c =
        unifyCategories a (unifyCategories b c)) ∧
    (∀ (init : NodeCat) (l₁ l₂ : List NodeCat), l₁.Perm l₂ →
      reduceCategories init l₁ = reduceCategories init l₂) := by
  refine ⟨by decide, by decide, ?_⟩
  intro init l₁ l₂ h
  have rc : ∀ z x y : NodeCat,
      unifyCategories (unifyCategories z x) y
        = unifyCategories (unifyCategories z y) x := by decide
  exact h.foldl_eq' (fun x _ y _ z => rc z x y) init

/-- C6 counterexample.  The claim that every transition out of the
tokenizer's Error state "emits Error tokens" fails at the very first
cell of the `PD_ERR` row (opening brace at JSON root): the transition
does stay in `PD_ERR`, but the translation table emits no token at
all. -/
theorem error_state_emission_counterexample :
    ¬(pdaTransition PD_ERR STACK_ROOT OBC = PD_ERR ∧
      pdaEmit PD_ERR STACK_ROOT OBC ≠ [] ∧
      ∀ t ∈ pdaEmit PD_ERR STACK_ROOT OBC, t = TK_ERR) := by
  decide

/-- C6 as amended.  The tokenizer's Error state is sticky: for every
stack context and every input symbol group the transition out of
`PD_ERR` returns to `PD_ERR` — but it emits no tokens (the `PD_ERR`
translation row is all empty), so an invalid document's token stream
simply ends at the first error token rather than growing. -/
theorem error_state_sticky_amended :
    ∀ (ctx : StackCtx) (g : PdaSG),
      pdaTransition PD_ERR ctx g = PD_ERR ∧ pdaEmit PD_ERR ctx g = [] := by
  decide

/-- C4.  The whole pipeline on the worked-example input
turns the two records into a two-row table with exactly the columns
"a" and "b", both String-typed at the caster boundary, holding the raw
row values "0.0"/"0.1" and "1.0"/"1.1" (all rows valid). -/
theorem extract_column_scenario :
    parseNestedJson2 jsonInputC4 = Except.ok
      [(['a'], OutCol.str [['0', '.', '0'], ['0', '.', '1']] [true, true]),
       (['b'], OutCol.str [['1', '.', '0'], ['1', '.', '1']] [true, true])] := by
  rfl

/-- C3 counterexample.  On the input `1 2` the tree builder returns
normally, but the produced arrays have two root nodes with the
sentinel parent (the value node and the error node), so "exactly one
node id has the sentinel parent" fails. -/
theorem two_roots_counterexample :
    getTreeRepresentation jsonTwoRoots = Except.ok twoRootsTree ∧
    (twoRootsTree.pars.countP (fun p => p == none)) = 2 := by
  exact ⟨rfl, rfl⟩

/-- C5 counterexample.  A span whose unescaping meets an orphaned low
surrogate (`"\uDC00"`) is NOT marked null: `process_string` decodes the
lone code point (3 output bytes, `PARSING_SUCCESS`), so after the
caster pass the row's validity bit is still set and the null counter
untouched — the claim's "clears the bit and increments the counter"
fails for this malformed-escape kind. -/
theorem caster_low_surrogate_counterexample :
    (processString {} spanLowSurrogate).2.2 = CastResult.PARSING_SUCCESS ∧
    stringParseBatch noNullTrie {} [spanLowSurrogate] true
        ⟨[true], 0, [0], [[]]⟩ =
      ⟨[true], 0, [3], [[]]⟩ ∧
    ¬((false : Bool) = true ∧ (0 : Nat) = 0 + 1) := by
  refine ⟨rfl, rfl, by simp⟩

/-- C7 counterexample.  For the input `[{"a":"xy"}]` the materialized
String column of field "a" (column id 3) ends, after the inclusive
max-scan, with `string_offsets = [7]` and `string_lengths = [2]`: the
offsets entry is the value's byte position in the input, so the last
offsets value (7) is not the total number of chars written for the
column (2). -/
theorem string_offsets_counterexample :
    (materializeRoot jsonInputXY).map (fun s =>
        ((s.1.bufs.getD 3 default).ctype,
         (s.1.bufs.getD 3 default).stringOffsets,
         (s.1.bufs.getD 3 default).stringLengths)) =
      Except.ok (JsonColT.StringColumn, [7], [2]) ∧
    ¬(([7] : List Nat).getLastD 0 = ([2] : List Nat).foldl (· + ·) 0) := by
  refine ⟨rfl, by simp⟩

/-- C8.  The sequential `process_string` path and the warp/block
`parse_fn_string_parallel` path — documented as the "warp/block
parallel version" of the same operation — disagree: on the span
`"\q"` (quote, backslash, backslash, q, quote) the sequential path
succeeds and outputs the two bytes `\` `q`, while the warp/block path
reads the raw previous character, classifies `q` as an invalid escape
and nulls the row; on the orphaned low surrogate `"\uDC00"` the
sequential path writes 3 bytes while the warp/block path writes
none. -/
theorem string_decode_paths_diverge :
    seqRowOutcome noNullTrie {} spanEscBackslashQ = RowOutcome.produced 2 [92, 113] ∧
    warpRowOutcome noNullTrie {} spanEscBackslashQ = RowOutcome.nulled ∧
    RowOutcome.produced 2 [92, 113] ≠ RowOutcome.nulled ∧
    seqRowOutcome noNullTrie {} spanLowSurrogate =
      RowOutcome.produced 3 [237, 176, 128] ∧
    warpRowOutcome noNullTrie {} spanLowSurrogate = RowOutcome.produced 0 [] := by
  refine ⟨rfl, rfl, by simp, rfl, rfl⟩

/-- C10.  Whenever the pipeline materializes a data root that is not a
List column with exactly one Struct child column, `parse_nested_json2`
fails with the array-of-objects error and produces no table. -/
theorem array_of_objects_check :
    ∀ (input : List Char) (st : BuildSt) (rootId : Nat),
      materializeRoot input = Except.ok (st, rootId) →
      rootShapeOk st rootId = false →
      parseNestedJson2 input =
        Except.error
          "Currently the nested JSON parser only supports an array of (nested) objects" := by
  intro input st rootId hm hshape
  unfold parseNestedJson2
  rw [hm]
  simp [Bind.bind, Except.bind, hshape]

/-- C10 witness.  The bare value `1` materializes to a root String
column, the shape check fails, and the parse is rejected. -/
theorem array_of_objects_check_witness :
    parseNestedJson2 jsonBareValue =
      Except.error
        "Currently the nested JSON parser only supports an array of (nested) objects" :=
  array_of_objects_check jsonBareValue stBareValue 0 rfl rfl

/-- The head of a max-scan, when present, is at least the carried
running maximum. -/
theorem maxScanFrom_head_ge (l : List Nat) (m x : Nat)
    (h : x ∈ (maxScanFrom m l).head?) : m ≤ x := by
  cases l with
  | nil => simp [maxScanFrom] at h
  | cons a t =>
    simp only [maxScanFrom, List.head?_cons, Option.mem_def, Option.some_inj] at h
    subst h
    exact Nat.le_max_left m a

/-- A max-scan output is non-decreasing. -/
theorem maxScanFrom_chain (l : List Nat) : ∀ m, List.Chain' (· ≤ ·) (maxScanFrom m l) := by
  induction l with
  | nil => intro m; simp [maxScanFrom]
  | cons a t ih =>
    intro m
    rw [maxScanFrom, List.chain'_cons']
    refine ⟨fun y hy => ?_, ih (Nat.max m a)⟩
    exact maxScanFrom_head_ge t (Nat.max m a) y hy

/-- The last element of a max-scan is the fold of `max` over the input
(with the carried maximum as start). -/
theorem maxScanFrom_getLastD (l : List Nat) : ∀ m,
    (maxScanFrom m l).getLastD m = l.foldl Nat.max m := by
  induction l with
  | nil => intro m; simp [maxScanFrom]
  | cons a t ih =>
    intro m
    rw [maxScanFrom, List.getLastD_cons, List.foldl_cons]
    exact ih (Nat.max m a)

/-- C7 as amended.  After the Column Materializer's inclusive-max scan,
every String column's `string_offsets` and every List column's
`child_offsets` array is non-decreasing, and its last value equals the
maximum entry scattered into the array before the scan (for String
columns those entries are input byte offsets of the row values — the
(offset, length) pair convention — not cumulative character counts,
so the last value is the largest written byte offset rather than the
total chars written; for List columns the maximum entry is one past
the last child's row offset, the total number of children written). -/
theorem offsets_scan_amended :
    ∀ (b : ColBufs),
      (b.ctype = JsonColT.StringColumn →
        List.Chain' (· ≤ ·) (scanColOffsets b).stringOffsets ∧
        (scanColOffsets b).stringOffsets.getLastD 0 =
          b.stringOffsets.foldl Nat.max 0) ∧
      (b.ctype = JsonColT.ListColumn →
        List.Chain' (· ≤ ·) (scanColOffsets b).childOffsets ∧
        (scanColOffsets b).childOffsets.getLastD 0 =
          b.childOffsets.foldl Nat.max 0) := by
  intro b
  constructor
  · intro h
    simp only [scanColOffsets, h, maxScan]
    exact ⟨maxScanFrom_chain _ 0, maxScanFrom_getLastD _ 0⟩
  · intro h
    simp only [scanColOffsets, h, maxScan]
    exact ⟨maxScanFrom_chain _ 0, maxScanFrom_getLastD _ 0⟩

/-- C9.  The caster's null-skip is idempotent: a row whose validity bit
is already clear is skipped before the trie membership test (the
equality holds for every `trieNa`), the null counter is not bumped and
no output bytes are written — only the size-only pass re-zeroes the
row's offset slot — so re-running the caster on an already-nulled row
changes nothing. -/
theorem null_skip_idempotent :
    (∀ (trieNa : List Char → Bool) (opts : CastOpts) (spans : List (List Char))
        (sizeOnly : Bool) (st : CasterState) (idx : Nat),
      st.validity.getD idx false = false →
      stringParseRow trieNa opts spans sizeOnly st idx =
        if sizeOnly then { st with offsets := st.offsets.set idx 0 } else st) ∧
    (∀ (trieNa : List Char → Bool) (opts : CastOpts) (spans : List (List Char))
        (sizeOnly : Bool) (st : CasterState) (idx : Nat),
      st.validity.getD idx false = false →
      stringParseRow trieNa opts spans sizeOnly
          (stringParseRow trieNa opts spans sizeOnly st idx) idx =
        stringParseRow trieNa opts spans sizeOnly st idx) := by
  have base : ∀ (trieNa : List Char → Bool) (opts : CastOpts) (spans : List (List Char))
      (sizeOnly : Bool) (st : CasterState) (idx : Nat),
      st.validity.getD idx false = false →
      stringParseRow trieNa opts spans sizeOnly st idx =
        if sizeOnly then { st with offsets := st.offsets.set idx 0 } else st := by
    intro trieNa opts spans sizeOnly st idx h
    rw [List.getD_eq_getElem?_getD] at h
    simp [stringParseRow, h]
  refine ⟨base, ?_⟩
  intro trieNa opts spans sizeOnly st idx h
  cases sizeOnly with
  | false =>
    have e1 : stringParseRow trieNa opts spans false st idx = st := by
      simpa using base trieNa opts spans false st idx h
    rw [e1]
    exact e1
  | true =>
    have e1 : stringParseRow trieNa opts spans true st idx =
        { st with offsets := st.offsets.set idx 0 } := by
      simpa using base trieNa opts spans true st idx h
    have h2 : ({ st with offsets := st.offsets.set idx 0 } : CasterState).validity.getD
        idx false = false := h
    have e2 := base trieNa opts spans true _ idx h2
    rw [e1, e2]
    simp [List.set_set]

/-- C5 as amended.  A span whose unescaping meets a malformed escape —
a backslash at the end of the string, an unrecognized escape
character, or `\u` not followed by 4 valid hex digits — fails
`process_string`; for any such failing row (not already null, not a
null literal) the caster clears only that row's validity bit,
increments the device-wide null counter by one, zeroes the row's
offset slot in the size-only pass, and leaves every other row's
validity, offsets and outputs untouched (each row is processed
independently, so the batch is not aborted).  An orphaned low
surrogate is NOT an error on this path: `process_string` succeeds on
it (last conjunct). -/
theorem caster_error_policy_amended :
    (∀ (trieNa : List Char → Bool) (opts : CastOpts) (spans : List (List Char))
        (st : CasterState) (idx : Nat) (sizeOnly : Bool),
      st.validity.getD idx false = true →
      trieNa (spans.getD idx []) = false →
      (processString opts (spans.getD idx [])).2.2 = CastResult.PARSING_FAILURE →
      (stringParseRow trieNa opts spans sizeOnly st idx).validity =
          st.validity.set idx false ∧
      (stringParseRow trieNa opts spans sizeOnly st idx).nullCount =
          st.nullCount + 1 ∧
      (sizeOnly = true →
        (stringParseRow trieNa opts spans sizeOnly st idx).offsets =
          st.offsets.set idx 0) ∧
      (∀ j, j ≠ idx →
        (stringParseRow trieNa opts spans sizeOnly st idx).validity.getD j false =
            st.validity.getD j false ∧
        (stringParseRow trieNa opts spans sizeOnly st idx).offsets.getD j 0 =
            st.offsets.getD j 0 ∧
        (stringParseRow trieNa opts spans sizeOnly st idx).outputs.getD j [] =
            st.outputs.getD j [])) ∧
    (processString {} spanBackslashEnd).2.2 = CastResult.PARSING_FAILURE ∧
    (processString {} spanBadEscape).2.2 = CastResult.PARSING_FAILURE ∧
    (processString {} spanBadHex).2.2 = CastResult.PARSING_FAILURE ∧
    (processString {} spanLowSurrogate).2.2 = CastResult.PARSING_SUCCESS := by
  refine ⟨?_, rfl, rfl, rfl, rfl⟩
  intro trieNa opts spans st idx sizeOnly hv hn hf
  have hrow : stringParseRow trieNa opts spans sizeOnly st idx =
      { st with
        validity := st.validity.set idx false
        nullCount := st.nullCount + 1
        offsets := if sizeOnly then st.offsets.set idx 0 else st.offsets
        outputs := if sizeOnly then st.outputs else
          st.outputs.set idx (processString opts (spans.getD idx [])).2.1 } := by
    rw [List.getD_eq_getElem?_getD] at hv
    rw [List.getD_eq_getElem?_getD] at hn hf
    simp [stringParseRow, hv, hn, hf]
  rw [hrow]
  refine ⟨rfl, rfl, ?_, ?_⟩
  · intro hs
    simp [hs]
  · intro j hj
    refine ⟨getD_set_ne _ _ _ _ _ hj, ?_, ?_⟩
    · cases sizeOnly with
      | false => rfl
      | true => exact getD_set_ne _ _ _ _ _ hj
    · cases sizeOnly with
      | false => exact getD_set_ne _ _ _ _ _ hj
      | true => rfl

/-- Appending one element does not change earlier `getD` reads. -/
theorem getD_append_lt {α : Type} (l : List α) (a : α) (i : Nat) (d : α)
    (h : i < l.length) : (l ++ [a]).getD i d = l.getD i d :=
  List.getD_append l [a] d i h

/-- The appended element is read back at the old length. -/
theorem getD_append_self {α : Type} (l : List α) (a : α) (d : α) :
    (l ++ [a]).getD l.length d = a := by
  rw [List.getD_append_right l [a] d l.length (Nat.le_refl _)]
  simp

/-- The invariant holds for the empty tree and empty stack. -/
theorem stackInv_empty : StackInv TreeMeta.empty [] := by
  refine ⟨rfl, rfl, ?_, ?_⟩
  · intro i hi; simp [TreeMeta.empty] at hi
  · intro j hj; simp at hj

/-- Popping the stack's top preserves the invariant. -/
theorem stackInv_tail (tm : TreeMeta) (x : Nat × Bool) (s : List (Nat × Bool))
    (inv : StackInv tm (x :: s)) : StackInv tm s := by
  obtain ⟨h1, h2, h3, h4⟩ := inv
  refine ⟨h1, h2, h3, ?_⟩
  intro j hj
  have := h4 (j + 1) (by simpa using Nat.succ_lt_succ hj)
  rw [List.getD_cons_succ] at this
  obtain ⟨ha, hb⟩ := this
  exact ⟨ha, by rw [hb]; simp; omega⟩

/-- The field-name pop preserves the invariant. -/
theorem stackInv_fieldPop (tm : TreeMeta) (stk : List (Nat × Bool))
    (inv : StackInv tm stk) : StackInv tm (fieldPop stk) := by
  match stk with
  | [] => exact inv
  | (n, false) :: s => exact inv
  | (n, true) :: s => exact stackInv_tail tm (n, true) s inv

/-- Pushing a node whose recorded level is the stack size preserves the
invariant. -/
theorem stackInv_push (tm : TreeMeta) (stk : List (Nat × Bool)) (n : Nat) (f : Bool)
    (inv : StackInv tm stk) (hn : n < tm.cats.length)
    (hl : tm.levs.getD n 0 = stk.length) : StackInv tm ((n, f) :: stk) := by
  obtain ⟨h1, h2, h3, h4⟩ := inv
  refine ⟨h1, h2, h3, ?_⟩
  intro j hj
  cases j with
  | zero => exact ⟨hn, by simpa using hl⟩
  | succ j =>
    have hj' : j < stk.length := by simpa using Nat.lt_of_succ_lt_succ hj
    have := h4 j hj'
    rw [List.getD_cons_succ]
    obtain ⟨ha, hb⟩ := this
    exact ⟨ha, by rw [hb]; simp; omega⟩

/-- Emitting a node preserves the invariant (the new node satisfies the
forest property: its parent is the stack top, created earlier, and its
level is the parent's level plus one), and when the token is a node
the arrays grow by one entry whose level is the stack size. -/
theorem emitNode_inv (t : Token) (rb re : Nat) (tm : TreeMeta) (stk : List (Nat × Bool))
    (inv : StackInv tm stk) :
    StackInv (emitNode t rb re tm stk) stk ∧
    (isNodeTok t = true →
      (emitNode t rb re tm stk).cats.length = tm.cats.length + 1 ∧
      (emitNode t rb re tm stk).levs.getD tm.cats.length 0 = stk.length) := by
  obtain ⟨h1, h2, h3, h4⟩ := inv
  cases hnode : isNodeTok t with
  | false =>
    have e : emitNode t rb re tm stk = tm := by simp [emitNode, hnode]
    rw [e]
    exact ⟨⟨h1, h2, h3, h4⟩, fun hc => absurd hc (by simp)⟩
  | true =>
    set n := tm.cats.length with hn
    have hlen : (emitNode t rb re tm stk).cats.length = n + 1 := by
      simp [emitNode, hnode]
    have hparsLen : (emitNode t rb re tm stk).pars.length = n + 1 := by
      simp [emitNode, hnode, h1]
    have hlevsLen : (emitNode t rb re tm stk).levs.length = n + 1 := by
      simp [emitNode, hnode, h2]
    have eP : ∀ i, i < n → (emitNode t rb re tm stk).pars.getD i none = tm.pars.getD i none := by
      intro i hi
      simp only [emitNode, hnode, if_pos]
      exact getD_append_lt _ _ _ _ (by omega)
    have eL : ∀ i, i < n → (emitNode t rb re tm stk).levs.getD i 0 = tm.levs.getD i 0 := by
      intro i hi
      simp only [emitNode, hnode, if_pos]
      exact getD_append_lt _ _ _ _ (by omega)
    have ePn : (emitNode t rb re tm stk).pars.getD n none = stk.head?.map Prod.fst := by
      simp only [emitNode, hnode, if_pos]
      have := getD_append_self tm.pars (stk.head?.map Prod.fst) none
      rw [h1] at this
      exact this
    have eLn : (emitNode t rb re tm stk).levs.getD n 0 = stk.length := by
      simp only [emitNode, hnode, if_pos]
      have := getD_append_self tm.levs stk.length 0
      rw [h2] at this
      exact this
    refine ⟨⟨by rw [hparsLen, hlen], by rw [hlevsLen, hlen], ?_, ?_⟩, fun _ => ⟨hlen, eLn⟩⟩
    · -- every node of the extended arrays is good
      intro i hi
      rw [hlen] at hi
      rcases Nat.lt_or_ge i n with hlt | hge
      · obtain ⟨g1, g2⟩ := h3 i hlt
        constructor
        · intro hnone
          rw [eP i hlt] at hnone
          rw [eL i hlt]
          exact g1 hnone
        · intro p hp
          rw [eP i hlt] at hp
          obtain ⟨q1, q2⟩ := g2 p hp
          refine ⟨q1, ?_⟩
          rw [eL i hlt, eL p (by omega), q2]
      · have hieq : i = n := by omega
        subst hieq
        constructor
        · intro hnone
          rw [ePn] at hnone
          rw [eLn]
          cases stk with
          | nil => rfl
          | cons x s => simp at hnone
        · intro p hp
          rw [ePn] at hp
          cases stk with
          | nil => simp at hp
          | cons x s =>
            have hpx : x.1 = p := by simpa using hp
            have h40 := h4 0 (by simp)
            simp only [List.getD_cons_zero] at h40
            obtain ⟨ha, hb⟩ := h40
            rw [← hpx]
            refine ⟨ha, ?_⟩
            rw [eLn, eL x.1 ha, hb]
            simp
    · -- the stack clause survives the append
      intro j hj
      obtain ⟨ha, hb⟩ := h4 j hj
      refine ⟨by rw [hlen]; omega, ?_⟩
      rw [eL _ ha, hb]

/-- One tree-builder step preserves the invariant. -/
theorem treeStep_inv (t : Token) (rb re : Nat) (tm : TreeMeta) (stk : List (Nat × Bool))
    (tm' : TreeMeta) (stk' : List (Nat × Bool)) (inv : StackInv tm stk)
    (h : treeStep t rb re tm stk = .ok (tm', stk')) : StackInv tm' stk' := by
  obtain ⟨invE, hgrow⟩ := emitNode_inv t rb re tm stk inv
  unfold treeStep at h
  by_cases hb : t == TK_BFN
  · rw [if_pos hb] at h
    obtain ⟨he, hs⟩ := Prod.mk.injEq .. ▸ Except.ok.injEq .. ▸ h
    have hnode : isNodeTok t = true := by
      have : t = TK_BFN := by simpa using hb
      rw [this]; rfl
    obtain ⟨hlen, hlev⟩ := hgrow hnode
    subst he
    rw [← hs]
    exact stackInv_push _ stk tm.cats.length true invE (by omega) hlev
  · rw [if_neg hb] at h
    by_cases hp : doesPush t
    · rw [if_pos hp] at h
      obtain ⟨he, hs⟩ := Prod.mk.injEq .. ▸ Except.ok.injEq .. ▸ h
      have hnode : isNodeTok t = true := by
        cases t <;> simp_all [doesPush, isNodeTok]
      obtain ⟨hlen, hlev⟩ := hgrow hnode
      subst he
      rw [← hs]
      exact stackInv_fieldPop _ _
        (stackInv_push _ stk tm.cats.length false invE (by omega) hlev)
    · rw [if_neg hp] at h
      by_cases hq : doesPop t
      · rw [if_pos hq] at h
        cases stk with
        | nil => simp at h
        | cons x s =>
          obtain ⟨he, hs⟩ := Prod.mk.injEq .. ▸ Except.ok.injEq .. ▸ h
          subst he
          rw [← hs]
          exact stackInv_fieldPop _ _ (stackInv_tail _ x s invE)
      · rw [if_neg hq] at h
        obtain ⟨he, hs⟩ := Prod.mk.injEq .. ▸ Except.ok.injEq .. ▸ h
        subst he
        rw [← hs]
        exact stackInv_fieldPop _ _ invE

/-- The tree-builder loop preserves the invariant: a successful run from an
invariant-satisfying state yields a meta whose nodes are all good. -/
theorem treeGo_inv : ∀ (n : Nat) (toks : List (Token × Nat)) (tm : TreeMeta)
    (stk : List (Nat × Bool)) (tmF : TreeMeta), toks.length ≤ n →
    StackInv tm stk → treeGo toks tm stk = .ok tmF →
    ∀ i, i < tmF.cats.length → GoodNode tmF i := by
  intro n
  induction n with
  | zero =>
    intro toks tm stk tmF hle inv h i hi
    have ht : toks = [] := List.length_eq_zero.mp (Nat.le_zero.mp hle)
    subst ht
    simp only [treeGo, Except.ok.injEq] at h
    subst h
    exact inv.2.2.1 i hi
  | succ n ih =>
    intro toks tm stk tmF hle inv h i hi
    rcases toks with _ | ⟨⟨t, idx⟩, _ | ⟨⟨t2, idx2⟩, rest⟩⟩
    · simp only [treeGo, Except.ok.injEq] at h
      subst h
      exact inv.2.2.1 i hi
    · rcases hstep : treeStep t (getTokenIndex t idx) (getTokenIndex t idx + 1) tm stk
        with e | ⟨tm', stk'⟩
      · simp [treeGo, hstep] at h
      · simp only [treeGo, hstep, Except.ok.injEq] at h
        subst h
        exact (treeStep_inv t _ _ tm stk tm' stk' inv hstep).2.2.1 i hi
    · by_cases hc : isBeginOfSection t && t2 == endOfPartner t
      · rcases hstep : treeStep t (getTokenIndex t idx) idx2 tm stk with e | ⟨tm', stk'⟩
        · simp [treeGo, hc, hstep] at h
        · simp only [treeGo, hc, if_true, hstep] at h
          have hlen : rest.length ≤ n := by
            simp only [List.length_cons] at hle; omega
          exact ih rest tm' stk' tmF hlen
            (treeStep_inv t _ _ tm stk tm' stk' inv hstep) h i hi
      · rcases hstep : treeStep t (getTokenIndex t idx) (getTokenIndex t idx + 1) tm stk
          with e | ⟨tm', stk'⟩
        · simp [treeGo, hc, hstep] at h
        · simp only [treeGo, hc, if_false, hstep] at h
          have hlen : ((t2, idx2) :: rest).length ≤ n := by
            simp only [List.length_cons] at hle ⊢; omega
          exact ih ((t2, idx2) :: rest) tm' stk' tmF hlen
            (treeStep_inv t _ _ tm stk tm' stk' inv hstep) h i hi

/-- C3 (amended): whenever the host tree builder succeeds, every emitted node
either is a root (sentinel parent, level 0) or has a parent emitted strictly
earlier whose level is exactly one less. The spec additionally claimed a
unique root; the counterexample `two_roots_counterexample` shows two nodes
with sentinel parents can coexist, so that part is dropped here. -/
theorem tree_builder_forest_amended (toks : List (Token × Nat)) (tm : TreeMeta)
    (h : treeGo toks TreeMeta.empty [] = .ok tm) :
    ∀ i, i < tm.cats.length → GoodNode tm i :=
  fun i hi =>
    treeGo_inv toks.length toks TreeMeta.empty [] tm (Nat.le_refl _) stackInv_empty h i hi

/-- Witness for C3: the amended forest property holds concretely for node 3 of
the tree built from `jsonInputC4`. -/
theorem tree_builder_forest_witness : GoodNode tmC4 3 :=
  tree_builder_forest_amended toksC4 tmC4 rfl 3 (by decide)
